import Mathlib

/-!
Shallow embedding of the user/profile CRUD service in `src/main.py`.

The service keeps four process-local dictionaries:
  `users            : Dict[UUID, UserRead]`
  `user_secrets     : Dict[UUID, dict]`      (plaintext password per user)
  `profiles         : Dict[UUID, ProfileRead]`
  `profiles_by_user : Dict[UUID, UUID]`      (1:1 secondary index, user -> profile)

Python dicts preserve insertion order, re-assignment of an existing key keeps
its position, and `pop` removes the entry; we model each dict as an
association list over opaque identifiers with exactly those operations.
UUIDs are opaque identifiers, modelled as natural numbers; the handlers that
generate a fresh UUID take the generated identifier (and, for users, the
creation timestamp) as an explicit argument.

Handlers return the HTTP outcome (`Except HTTPError α`) together with the
store state at the moment the handler returns or raises, mirroring the
source line by line: in the source every `raise HTTPException` happens
before any store mutation of that handler, which here shows up as the error
branches returning the entry state.
-/

namespace Svc

/-- Opaque record identifier (a UUID in the source). -/
abbrev Id := Nat

/-- Public user record (`UserRead`): id, name, email, phone, membership
tier and creation timestamp; no password field. -/
structure UserRead where
  id : Id
  name : String
  email : String
  phone : String
  membership_tier : String
  created_at : Nat
  deriving Repr, DecidableEq

/-- User creation payload (`UserCreate`): public fields plus a write-only
password. -/
structure UserCreate where
  name : String
  email : String
  phone : String
  membership_tier : String
  password : String
  deriving Repr, DecidableEq

/-- Modelled from the spec: `models/user.py` (the `UserUpdate` Pydantic
model) is not among the sources. Per the spec, a user patch carries an
optional replacement for each mutable public field, plus an optional
write-only `new_password`; `none` means the field is absent from the request
body (Pydantic's `exclude_unset` semantics). `id` and the creation timestamp
are not patchable ("fields other than id are mutable via partial update"). -/
structure UserUpdate where
  name : Option String
  email : Option String
  phone : Option String
  membership_tier : Option String
  new_password : Option String
  deriving Repr, DecidableEq

/-- Profile record (`ProfileRead`): id, owning user id, username, and a
descriptive field (`bio` stands for the source's "other descriptive
fields"). -/
structure ProfileRead where
  id : Id
  user_id : Id
  username : String
  bio : String
  deriving Repr, DecidableEq

/-- Profile creation payload (`ProfileCreate`). -/
structure ProfileCreate where
  user_id : Id
  username : String
  bio : String
  deriving Repr, DecidableEq

/-- Modelled from the spec: `models/profile.py` (the `ProfileUpdate`
Pydantic model) is not among the sources. Per spec §9, the profile patch may
carry `user_id` and the merged-dict update path in `src/main.py` silently
applies it ("current behavior silently permits it in the merged-dict
approach"); hence the patch model has an optional `user_id` alongside the
optional `username` and descriptive fields. -/
structure ProfileUpdate where
  user_id : Option Id
  username : Option String
  bio : Option String
  deriving Repr, DecidableEq

/-- An HTTP error response (`fastapi.HTTPException`). -/
structure HTTPError where
  status_code : Nat
  detail : String
  deriving Repr, DecidableEq

deriving instance DecidableEq for Except

/-- Lookup in a Python-dict-as-association-list (`m[k]` / `k in m`). -/
def getv? {α : Type} : List (Id × α) → Id → Option α
  | [], _ => none
  | (k, v) :: rest, i => if k = i then some v else getv? rest i

/-- Assignment `m[k] = v`: replace in place if the key is present, else
append at the end (Python dicts keep the position of an existing key and
append new keys in insertion order). -/
def setv {α : Type} : List (Id × α) → Id → α → List (Id × α)
  | [], i, v => [(i, v)]
  | (k, w) :: rest, i, v => if k = i then (i, v) :: rest else (k, w) :: setv rest i v

/-- Removal `m.pop(k, None)`. -/
def delv {α : Type} : List (Id × α) → Id → List (Id × α)
  | [], _ => []
  | (k, w) :: rest, i => if k = i then rest else (k, w) :: delv rest i

/-- The dict's keys, in insertion order. -/
def keys {α : Type} (m : List (Id × α)) : List Id := m.map Prod.fst

/-- The dict's values, in insertion order (`m.values()`). -/
def values {α : Type} (m : List (Id × α)) : List α := m.map Prod.snd

/-- The four global stores of `src/main.py`. -/
structure State where
  users : List (Id × UserRead)
  user_secrets : List (Id × String)
  profiles : List (Id × ProfileRead)
  profiles_by_user : List (Id × Id)
  deriving Repr, DecidableEq

/-- The stores are initialized empty at process start. -/
def initState : State := ⟨[], [], [], []⟩

/-- Python's `str.lower()` (`email.lower()`, `username.lower()` in the
source): pointwise character lowercasing. Defined by structural recursion
over the string's characters so the kernel can evaluate it (the built-in
`String.toLower` is defined by well-founded recursion and does not
reduce). -/
def lower (s : String) : String := ⟨s.data.map Char.toLower⟩

/-- `_email_exists(email, exclude_id)`: case-insensitive scan of
`users.values()`; `exclude_id` skips the user whose `id` field equals it. -/
def _email_exists (s : State) (email : String) (exclude_id : Option Id) : Bool :=
  (values s.users).any fun u =>
    lower u.email == lower email &&
      (match exclude_id with
       | none => true
       | some ex => u.id != ex)

/-- `_phone_exists(phone, exclude_id)`: exact scan of `users.values()`. -/
def _phone_exists (s : State) (phone : String) (exclude_id : Option Id) : Bool :=
  (values s.users).any fun u =>
    u.phone == phone &&
      (match exclude_id with
       | none => true
       | some ex => u.id != ex)

/-- `_username_exists(username, exclude_id)`: case-insensitive scan of
`profiles.items()`; note it excludes by the dict key `pid`, not by the
record's `id` field. -/
def _username_exists (s : State) (username : String) (exclude_id : Option Id) : Bool :=
  s.profiles.any fun kv =>
    lower kv.2.username == lower username &&
      (match exclude_id with
       | none => true
       | some ex => kv.1 != ex)

/-- The public record built from the creation payload with the password
excluded — `UserRead(**payload.model_dump(exclude=...))` — plus the
generated id and the creation timestamp. -/
def mkUser (payload : UserCreate) (newId : Id) (now : Nat) : UserRead :=
  { id := newId, name := payload.name, email := payload.email,
    phone := payload.phone, membership_tier := payload.membership_tier,
    created_at := now }

/-- `POST /users`: duplicate-email then duplicate-phone check, then store the
public record under the freshly generated id and the plaintext password in
`user_secrets`, and return the public record. -/
def create_user (s : State) (payload : UserCreate) (newId : Id) (now : Nat) :
    Except HTTPError UserRead × State :=
  if _email_exists s payload.email none then
    (.error ⟨400, "Email already exists"⟩, s)
  else if _phone_exists s payload.phone none then
    (.error ⟨400, "Phone already exists"⟩, s)
  else
    let user := mkUser payload newId now
    (.ok user,
      { s with users := setv s.users user.id user,
               user_secrets := setv s.user_secrets user.id payload.password })

/-- `GET /users`: exact-match filters (email case-insensitive), AND-composed,
applied in the source's order over `users.values()`. -/
def list_users (s : State) (name email phone membership_tier : Option String) :
    List UserRead :=
  let results := values s.users
  let results := match name with
    | none => results
    | some n => results.filter fun u => u.name == n
  let results := match email with
    | none => results
    | some em => results.filter fun u => lower u.email == lower em
  let results := match phone with
    | none => results
    | some ph => results.filter fun u => u.phone == ph
  match membership_tier with
  | none => results
  | some t => results.filter fun u => u.membership_tier == t

/-- `GET /users/{user_id}`. -/
def get_user (s : State) (user_id : Id) : Except HTTPError UserRead :=
  match getv? s.users user_id with
  | none => .error ⟨404, "User not found"⟩
  | some u => .ok u

/-- The merged-dict rebuild `current.update(changes); UserRead(**current)`:
fields present in the patch replace the current values; `id` and
`created_at` are not in the patch model and survive the merge. -/
def applyUserPatch (u : UserRead) (patch : UserUpdate) : UserRead :=
  { u with
    name := patch.name.getD u.name,
    email := patch.email.getD u.email,
    phone := patch.phone.getD u.phone,
    membership_tier := patch.membership_tier.getD u.membership_tier }

/-- The guard `new_email and _email_exists(new_email, exclude_id=user_id)`:
the uniqueness re-check runs only when the patched email is truthy, i.e.
present and nonempty. -/
def userEmailDup (s : State) (user_id : Id) (patch : UserUpdate) : Bool :=
  match patch.email with
  | some e => e != "" && _email_exists s e (some user_id)
  | none => false

/-- The guard `new_phone and _phone_exists(new_phone, exclude_id=user_id)`. -/
def userPhoneDup (s : State) (user_id : Id) (patch : UserUpdate) : Bool :=
  match patch.phone with
  | some ph => ph != "" && _phone_exists s ph (some user_id)
  | none => false

/-- `PATCH /users/{user_id}`: 404 if unknown; the uniqueness re-checks run
only when the patched value is truthy (`if new_email and _email_exists(...)`
— a present-but-empty string skips the check); then the merged record is
stored and, if `new_password` is provided, the secret is replaced. -/
def update_user (s : State) (user_id : Id) (patch : UserUpdate) :
    Except HTTPError UserRead × State :=
  match getv? s.users user_id with
  | none => (.error ⟨404, "User not found"⟩, s)
  | some current =>
    if userEmailDup s user_id patch then (.error ⟨400, "Email already exists"⟩, s)
    else if userPhoneDup s user_id patch then (.error ⟨400, "Phone already exists"⟩, s)
    else
      let updated := applyUserPatch current patch
      (.ok updated,
        { s with users := setv s.users user_id updated,
                 user_secrets := match patch.new_password with
                   | none => s.user_secrets
                   | some pw => setv s.user_secrets user_id pw })

/-- `DELETE /users/{user_id}`: 404 if unknown; pops the public record and
the secret record. It touches neither `profiles` nor `profiles_by_user`. -/
def delete_user (s : State) (user_id : Id) : Except HTTPError Unit × State :=
  if (getv? s.users user_id).isSome then
    (.ok (),
      { s with users := delv s.users user_id,
               user_secrets := delv s.user_secrets user_id })
  else (.error ⟨404, "User not found"⟩, s)

/-- The record built by `ProfileRead(**payload.model_dump())` with the
generated id. -/
def mkProfile (payload : ProfileCreate) (newId : Id) : ProfileRead :=
  { id := newId, user_id := payload.user_id,
    username := payload.username, bio := payload.bio }

/-- `POST /profiles`: `_assert_user_exists`, `_assert_user_has_no_profile`
(a membership test on the secondary index), then the case-insensitive
username check; on success stores the record and the index entry. -/
def create_profile (s : State) (payload : ProfileCreate) (newId : Id) :
    Except HTTPError ProfileRead × State :=
  if (getv? s.users payload.user_id).isNone then
    (.error ⟨400, "User does not exist"⟩, s)
  else if (getv? s.profiles_by_user payload.user_id).isSome then
    (.error ⟨400, "User already has a profile"⟩, s)
  else if _username_exists s payload.username none then
    (.error ⟨400, "Username already exists"⟩, s)
  else
    let profile := mkProfile payload newId
    (.ok profile,
      { s with profiles := setv s.profiles profile.id profile,
               profiles_by_user := setv s.profiles_by_user profile.user_id profile.id })

/-- `GET /profiles`: optional exact owner filter and case-insensitive
username filter. -/
def list_profiles (s : State) (user_id : Option Id) (username : Option String) :
    List ProfileRead :=
  let results := values s.profiles
  let results := match user_id with
    | none => results
    | some uid => results.filter fun p => p.user_id == uid
  match username with
  | none => results
  | some un => results.filter fun p => lower p.username == lower un

/-- `GET /profiles/{profile_id}`. -/
def get_profile (s : State) (profile_id : Id) : Except HTTPError ProfileRead :=
  match getv? s.profiles profile_id with
  | none => .error ⟨404, "Profile not found"⟩
  | some p => .ok p

/-- The merged-dict rebuild for profiles: every field present in the patch —
including `user_id` — replaces the current value; `id` survives. -/
def applyProfilePatch (p : ProfileRead) (patch : ProfileUpdate) : ProfileRead :=
  { p with
    user_id := patch.user_id.getD p.user_id,
    username := patch.username.getD p.username,
    bio := patch.bio.getD p.bio }

/-- The guard `new_username and _username_exists(new_username, exclude_id=profile_id)`. -/
def profileUsernameDup (s : State) (profile_id : Id) (patch : ProfileUpdate) : Bool :=
  match patch.username with
  | some un => un != "" && _username_exists s un (some profile_id)
  | none => false

/-- `PATCH /profiles/{profile_id}`: 404 if unknown; the username uniqueness
re-check runs only when the patched username is truthy; then the merged
record is stored. The secondary index is not updated, even when the patch
changes `user_id`. -/
def update_profile (s : State) (profile_id : Id) (patch : ProfileUpdate) :
    Except HTTPError ProfileRead × State :=
  match getv? s.profiles profile_id with
  | none => (.error ⟨404, "Profile not found"⟩, s)
  | some current =>
    if profileUsernameDup s profile_id patch then
      (.error ⟨400, "Username already exists"⟩, s)
    else
      let updated := applyProfilePatch current patch
      (.ok updated, { s with profiles := setv s.profiles profile_id updated })

/-- `DELETE /profiles/{profile_id}`: 404 if unknown; pops the record and the
index entry keyed by the popped record's `user_id`. -/
def delete_profile (s : State) (profile_id : Id) : Except HTTPError Unit × State :=
  match getv? s.profiles profile_id with
  | none => (.error ⟨404, "Profile not found"⟩, s)
  | some prof =>
    (.ok (),
      { s with profiles := delv s.profiles profile_id,
               profiles_by_user := delv s.profiles_by_user prof.user_id })

/-! ## Request admissibility and the step relation

The spec excludes the "request/response schema validation machinery" as an
external collaborator: malformed bodies are rejected by Pydantic before a
handler runs. The `wf` predicates below model that boundary for the fields
the handlers' uniqueness checks inspect. -/

/-- Modelled from the spec: the Pydantic schemas for `UserCreate` are not in
the sources; schema validation rejects malformed input at the boundary, so
the identifying fields (email, phone) of an admitted creation body are
nonempty strings. -/
def UserCreate.wf (p : UserCreate) : Bool :=
  p.email != "" && p.phone != ""

/-- Modelled from the spec: schema validation for a user patch — whichever
of email/phone is present in the body is a nonempty string. -/
def UserUpdate.wf (p : UserUpdate) : Bool :=
  (match p.email with
   | some e => e != ""
   | none => true) &&
  (match p.phone with
   | some ph => ph != ""
   | none => true)

/-- Modelled from the spec: schema validation for profile creation — the
username is a nonempty string. -/
def ProfileCreate.wf (p : ProfileCreate) : Bool :=
  p.username != ""

/-- Modelled from the spec: schema validation for a profile patch — a
username present in the body is a nonempty string. -/
def ProfileUpdate.wf (p : ProfileUpdate) : Bool :=
  match p.username with
  | none => true
  | some un => un != ""

/-- One state-changing request, together with the identifiers (and, for user
creation, the timestamp) the handler generates internally. -/
inductive Act where
  | createUser (payload : UserCreate) (newId : Id) (now : Nat)
  | updateUser (user_id : Id) (patch : UserUpdate)
  | deleteUser (user_id : Id)
  | createProfile (payload : ProfileCreate) (newId : Id)
  | updateProfile (profile_id : Id) (patch : ProfileUpdate)
  | deleteProfile (profile_id : Id)
  deriving Repr, DecidableEq

/-- The store state after serving the request (errors leave it unchanged,
see the handlers). -/
def Act.apply (s : State) : Act → State
  | .createUser p i n => (create_user s p i n).2
  | .updateUser i patch => (update_user s i patch).2
  | .deleteUser i => (delete_user s i).2
  | .createProfile p i => (create_profile s p i).2
  | .updateProfile i patch => (update_profile s i patch).2
  | .deleteProfile i => (delete_profile s i).2

/-- Admissibility of a request at a state: the body passed schema
validation, and an id generated by a creation handler is fresh for its
store ("generates a new unique id"). -/
def Act.ok (s : State) : Act → Bool
  | .createUser p i _ => p.wf && (getv? s.users i).isNone
  | .updateUser _ patch => patch.wf
  | .deleteUser _ => true
  | .createProfile p i => p.wf && (getv? s.profiles i).isNone
  | .updateProfile _ patch => patch.wf
  | .deleteProfile _ => true

/-- `Trace s acts t`: serving the admissible requests `acts`, in order,
takes the stores from `s` to `t`. -/
inductive Trace : State → List Act → State → Prop where
  | nil (s : State) : Trace s [] s
  | cons {s t : State} {acts : List Act} (a : Act) (hok : Act.ok s a = true)
      (htail : Trace (Act.apply s a) acts t) : Trace s (a :: acts) t

/-- A state is reachable if some admissible request sequence produces it
from the empty stores. -/
def Reachable (s : State) : Prop := ∃ acts, Trace initState acts s

/-! ## Invariant definitions and concrete request data -/

/-- Structural well-formedness of the stores plus the uniqueness invariants
preserved by every admissible request. -/
structure Inv (s : State) : Prop where
  nodupU : (keys s.users).Nodup
  idU : ∀ kv ∈ s.users, kv.2.id = kv.1
  secKeys : keys s.user_secrets = keys s.users
  uniqEmail : ∀ kv1 ∈ s.users, ∀ kv2 ∈ s.users, kv1.1 ≠ kv2.1 →
    lower kv1.2.email ≠ lower kv2.2.email
  uniqPhone : ∀ kv1 ∈ s.users, ∀ kv2 ∈ s.users, kv1.1 ≠ kv2.1 →
    kv1.2.phone ≠ kv2.2.phone
  nodupP : (keys s.profiles).Nodup
  idP : ∀ kv ∈ s.profiles, kv.2.id = kv.1
  uniqUsername : ∀ kv1 ∈ s.profiles, ∀ kv2 ∈ s.profiles, kv1.1 ≠ kv2.1 →
    lower kv1.2.username ≠ lower kv2.2.username
  nodupIdx : (keys s.profiles_by_user).Nodup

/-- The request does not attempt to change a profile's owner: it is either
not a profile patch, or a profile patch whose body omits `user_id`. -/
def Act.noUidPatch : Act → Bool
  | .updateProfile _ patch => patch.user_id.isNone
  | _ => true

/-- The secondary index is exact: every live profile's owner maps to that
profile's key. -/
def IndexInv (s : State) : Prop :=
  ∀ kv ∈ s.profiles, getv? s.profiles_by_user kv.2.user_id = some kv.1

def payloadA : UserCreate :=
  { name := "Alice", email := "a@x.com", phone := "1",
    membership_tier := "FREE", password := "pwA" }

def payloadB : UserCreate :=
  { name := "Bob", email := "b@x.com", phone := "2",
    membership_tier := "PRO", password := "pwB" }

def profPayloadA : ProfileCreate := { user_id := 1, username := "alice", bio := "hi" }

def profPayloadB : ProfileCreate := { user_id := 2, username := "bob", bio := "yo" }

/-- Two users (ids 1, 2) and a profile (id 10) for user 1. -/
def baseActs : List Act :=
  [.createUser payloadA 1 0, .createUser payloadB 2 0, .createProfile profPayloadA 10]

def baseState : State :=
  Act.apply (Act.apply (Act.apply initState (.createUser payloadA 1 0))
    (.createUser payloadB 2 0)) (.createProfile profPayloadA 10)

/-- A single user (id 1). -/
def oneUserState : State := Act.apply initState (.createUser payloadA 1 0)

/-- A profile patch that only changes the owner. -/
def ownerPatch : ProfileUpdate := { user_id := some 1, username := none, bio := none }

/-- `baseState` plus a profile (id 11) for user 2, whose owner is then
patched to user 1 through `PATCH /profiles/11`. -/
def c2Acts : List Act :=
  baseActs ++ [.createProfile profPayloadB 11, .updateProfile 11 ownerPatch]

def c2State : State :=
  Act.apply (Act.apply baseState (.createProfile profPayloadB 11))
    (.updateProfile 11 ownerPatch)

/-- A user patch carrying only a new name. -/
def namePatch : UserUpdate :=
  { name := some ("Al"), email := none, phone := none,
    membership_tier := none, new_password := none }

/-- A profile patch carrying only a new bio. -/
def bioPatch : ProfileUpdate := { user_id := none, username := none, bio := some ("new") }

/-! ## Association-list lemmas -/

theorem getv?_setv_self {α : Type} (m : List (Id × α)) (i : Id) (v : α) :
    getv? (setv m i v) i = some v := by
  induction m with
  | nil => simp [setv, getv?]
  | cons kv rest ih =>
    obtain ⟨k, w⟩ := kv
    by_cases hk : k = i
    · simp [setv, hk, getv?]
    · simp [setv, hk, getv?, ih]

theorem getv?_setv_ne {α : Type} (m : List (Id × α)) (i j : Id) (v : α)
    (h : j ≠ i) : getv? (setv m i v) j = getv? m j := by
  have hij : ¬ i = j := fun h' => h h'.symm
  induction m with
  | nil =>
    simp only [setv, getv?]
    rw [if_neg hij]
  | cons kv rest ih =>
    obtain ⟨k, w⟩ := kv
    by_cases hk : k = i
    · subst hk
      simp only [setv, if_pos rfl, getv?]
      rw [if_neg hij, if_neg hij]
    · simp only [setv, if_neg hk, getv?]
      by_cases hkj : k = j
      · simp [hkj]
      · simp [hkj, ih]

theorem mem_setv {α : Type} {m : List (Id × α)} {i : Id} {v : α}
    {kv : Id × α} (hnd : (keys m).Nodup) (h : kv ∈ setv m i v) :
    kv = (i, v) ∨ (kv ∈ m ∧ kv.1 ≠ i) := by
  induction m with
  | nil =>
    simp [setv] at h
    exact Or.inl h
  | cons hd rest ih =>
    obtain ⟨k, w⟩ := hd
    simp only [keys, List.map_cons, List.nodup_cons] at hnd
    by_cases hk : k = i
    · subst hk
      simp only [setv, if_pos rfl] at h
      rcases List.mem_cons.mp h with h1 | h2
      · exact Or.inl h1
      · refine Or.inr ⟨List.mem_cons_of_mem _ h2, ?_⟩
        intro hkv
        exact hnd.1 (hkv ▸ (List.mem_map_of_mem Prod.fst h2))
    · simp only [setv, if_neg hk] at h
      rcases List.mem_cons.mp h with h1 | h2
      · subst h1
        exact Or.inr ⟨List.mem_cons_self _ _, hk⟩
      · rcases ih hnd.2 h2 with h3 | h4
        · exact Or.inl h3
        · exact Or.inr ⟨List.mem_cons_of_mem _ h4.1, h4.2⟩

theorem keys_setv_of_present {α : Type} {m : List (Id × α)} {i : Id} (v : α)
    (h : (getv? m i).isSome) : keys (setv m i v) = keys m := by
  induction m with
  | nil => simp [getv?] at h
  | cons hd rest ih =>
    obtain ⟨k, w⟩ := hd
    by_cases hk : k = i
    · simp [setv, hk, keys]
    · simp only [getv?, if_neg hk] at h
      simp [setv, hk, keys, List.map_cons]
      have := ih h
      simpa [keys] using this

theorem keys_setv_of_absent {α : Type} {m : List (Id × α)} {i : Id} (v : α)
    (h : getv? m i = none) : keys (setv m i v) = keys m ++ [i] := by
  induction m with
  | nil => simp [setv, keys]
  | cons hd rest ih =>
    obtain ⟨k, w⟩ := hd
    by_cases hk : k = i
    · simp [getv?, hk] at h
    · simp only [getv?, if_neg hk] at h
      simp only [setv, if_neg hk, keys, List.map_cons, List.cons_append]
      have := ih h
      simpa [keys] using this

theorem getv?_eq_none_iff {α : Type} {m : List (Id × α)} {i : Id} :
    getv? m i = none ↔ i ∉ keys m := by
  induction m with
  | nil => simp [getv?, keys]
  | cons hd rest ih =>
    obtain ⟨k, w⟩ := hd
    by_cases hk : k = i
    · simp [getv?, hk, keys]
    · simp only [getv?, if_neg hk, keys, List.map_cons, List.mem_cons]
      simp only [keys] at ih
      rw [ih]
      constructor
      · intro hni hmem
        rcases hmem with h1 | h2
        · exact hk h1.symm
        · exact hni h2
      · intro h1 h2
        exact h1 (Or.inr h2)

theorem mem_of_getv? {α : Type} {m : List (Id × α)} {i : Id} {v : α}
    (h : getv? m i = some v) : (i, v) ∈ m := by
  induction m with
  | nil => simp [getv?] at h
  | cons hd rest ih =>
    obtain ⟨k, w⟩ := hd
    by_cases hk : k = i
    · simp only [getv?] at h
      rw [if_pos hk] at h
      obtain rfl : w = v := Option.some.inj h
      subst hk
      exact List.mem_cons_self _ _
    · simp only [getv?] at h
      rw [if_neg hk] at h
      exact List.mem_cons_of_mem _ (ih h)

theorem getv?_of_mem {α : Type} {m : List (Id × α)} {i : Id} {v : α}
    (hnd : (keys m).Nodup) (h : (i, v) ∈ m) : getv? m i = some v := by
  induction m with
  | nil => simp at h
  | cons hd rest ih =>
    obtain ⟨k, w⟩ := hd
    simp only [keys, List.map_cons, List.nodup_cons] at hnd
    rcases List.mem_cons.mp h with h1 | h2
    · obtain ⟨hik, hvw⟩ := Prod.mk.injEq .. ▸ h1
      simp [getv?, hik.symm, hvw]
    · have hki : k ≠ i := by
        intro hk
        exact hnd.1 (hk ▸ (List.mem_map_of_mem Prod.fst h2))
      simp [getv?, hki, ih hnd.2 h2]

theorem delv_sublist {α : Type} (m : List (Id × α)) (i : Id) :
    (delv m i).Sublist m := by
  induction m with
  | nil => simp [delv]
  | cons hd rest ih =>
    obtain ⟨k, w⟩ := hd
    by_cases hk : k = i
    · simp [delv, hk]
    · simpa [delv, hk] using List.Sublist.cons₂ (k, w) ih

theorem mem_delv {α : Type} {m : List (Id × α)} {i : Id} {kv : Id × α}
    (h : kv ∈ delv m i) : kv ∈ m :=
  (delv_sublist m i).subset h

theorem keys_delv_sublist {α : Type} (m : List (Id × α)) (i : Id) :
    (keys (delv m i)).Sublist (keys m) :=
  (delv_sublist m i).map Prod.fst

theorem nodup_keys_delv {α : Type} {m : List (Id × α)} (i : Id)
    (hnd : (keys m).Nodup) : (keys (delv m i)).Nodup :=
  hnd.sublist (keys_delv_sublist m i)

theorem getv?_delv_ne {α : Type} (m : List (Id × α)) (i j : Id)
    (h : j ≠ i) : getv? (delv m i) j = getv? m j := by
  have hij : ¬ i = j := fun h' => h h'.symm
  induction m with
  | nil => simp [delv]
  | cons hd rest ih =>
    obtain ⟨k, w⟩ := hd
    by_cases hk : k = i
    · subst hk
      simp only [delv, if_true]
      simp only [getv?]
      rw [if_neg hij]
    · simp only [delv, if_neg hk, getv?]
      by_cases hkj : k = j
      · simp [hkj]
      · simp [hkj, ih]

theorem getv?_delv_self {α : Type} {m : List (Id × α)} {i : Id}
    (hnd : (keys m).Nodup) : getv? (delv m i) i = none := by
  induction m with
  | nil => simp [delv, getv?]
  | cons hd rest ih =>
    obtain ⟨k, w⟩ := hd
    simp only [keys, List.map_cons, List.nodup_cons] at hnd
    by_cases hk : k = i
    · subst hk
      simp only [delv, if_pos rfl]
      rw [getv?_eq_none_iff]
      exact hnd.1
    · simp [delv, hk, getv?, ih hnd.2]

theorem mem_delv_ne {α : Type} {m : List (Id × α)} {i : Id} {kv : Id × α}
    (hnd : (keys m).Nodup) (h : kv ∈ delv m i) : kv.1 ≠ i := by
  intro hkv
  have h1 : getv? (delv m i) i = none := getv?_delv_self hnd
  have h2 : (i, kv.2) ∈ delv m i := by
    have : kv = (i, kv.2) := by
      ext
      · exact hkv
      · rfl
    exact this ▸ h
  have h3 : i ∈ keys (delv m i) := List.mem_map_of_mem Prod.fst h2
  rw [getv?_eq_none_iff] at h1
  exact h1 h3

theorem keys_delv {α : Type} (m : List (Id × α)) (i : Id) :
    keys (delv m i) = (keys m).erase i := by
  induction m with
  | nil => simp [delv, keys]
  | cons hd rest ih =>
    obtain ⟨k, w⟩ := hd
    by_cases hk : k = i
    · simp [delv, hk, keys, List.erase_cons_head]
    · simp only [keys] at ih
      simp [delv, hk, keys, List.erase_cons_tail, ih]

theorem mem_values {α : Type} {m : List (Id × α)} {x : α} :
    x ∈ values m ↔ ∃ k, (k, x) ∈ m := by
  constructor
  · intro h
    rcases List.mem_map.mp h with ⟨kv, hkv, hx⟩
    exact ⟨kv.1, by rwa [show (kv.1, x) = kv from by rw [← hx]]⟩
  · rintro ⟨k, hk⟩
    exact List.mem_map.mpr ⟨(k, x), hk, rfl⟩

theorem getv?_isSome_iff {α : Type} {m : List (Id × α)} {i : Id} :
    (getv? m i).isSome = true ↔ i ∈ keys m := by
  rw [Option.isSome_iff_ne_none]
  constructor
  · intro h
    by_contra hmem
    exact h (getv?_eq_none_iff.mpr hmem)
  · intro h hnone
    exact (getv?_eq_none_iff.mp hnone) h

/-! ## Eliminating negative uniqueness-scan results -/

theorem not_email_exists_none {s : State} {em : String}
    (h : _email_exists s em none = false) :
    ∀ kv ∈ s.users, lower kv.2.email ≠ lower em := by
  intro kv hkv heq
  apply absurd h
  simp only [_email_exists, Bool.not_eq_false, List.any_eq_true]
  exact ⟨kv.2, mem_values.mpr ⟨kv.1, hkv⟩, by simp [heq]⟩

theorem not_email_exists_some {s : State} {em : String} {ex : Id}
    (h : _email_exists s em (some ex) = false) :
    ∀ kv ∈ s.users, lower kv.2.email = lower em → kv.2.id = ex := by
  intro kv hkv heq
  by_contra hne
  apply absurd h
  simp only [_email_exists, Bool.not_eq_false, List.any_eq_true]
  exact ⟨kv.2, mem_values.mpr ⟨kv.1, hkv⟩, by simp [heq, hne]⟩

theorem not_phone_exists_none {s : State} {ph : String}
    (h : _phone_exists s ph none = false) :
    ∀ kv ∈ s.users, kv.2.phone ≠ ph := by
  intro kv hkv heq
  apply absurd h
  simp only [_phone_exists, Bool.not_eq_false, List.any_eq_true]
  exact ⟨kv.2, mem_values.mpr ⟨kv.1, hkv⟩, by simp [heq]⟩

theorem not_phone_exists_some {s : State} {ph : String} {ex : Id}
    (h : _phone_exists s ph (some ex) = false) :
    ∀ kv ∈ s.users, kv.2.phone = ph → kv.2.id = ex := by
  intro kv hkv heq
  by_contra hne
  apply absurd h
  simp only [_phone_exists, Bool.not_eq_false, List.any_eq_true]
  exact ⟨kv.2, mem_values.mpr ⟨kv.1, hkv⟩, by simp [heq, hne]⟩

theorem not_username_exists_none {s : State} {un : String}
    (h : _username_exists s un none = false) :
    ∀ kv ∈ s.profiles, lower kv.2.username ≠ lower un := by
  intro kv hkv heq
  apply absurd h
  simp only [_username_exists, Bool.not_eq_false, List.any_eq_true]
  exact ⟨kv, hkv, by simp [heq]⟩

theorem not_username_exists_some {s : State} {un : String} {ex : Id}
    (h : _username_exists s un (some ex) = false) :
    ∀ kv ∈ s.profiles, lower kv.2.username = lower un → kv.1 = ex := by
  intro kv hkv heq
  by_contra hne
  apply absurd h
  simp only [_username_exists, Bool.not_eq_false, List.any_eq_true]
  exact ⟨kv, hkv, by simp [heq, hne]⟩

/-! ## Handler shape lemmas -/

theorem create_user_email_dup {s : State} {p : UserCreate} {newId : Id} {now : Nat}
    (he : _email_exists s p.email none = true) :
    create_user s p newId now = (.error ⟨400, "Email already exists"⟩, s) := by
  simp [create_user, he]

theorem create_user_phone_dup {s : State} {p : UserCreate} {newId : Id} {now : Nat}
    (he : _email_exists s p.email none = false)
    (hp : _phone_exists s p.phone none = true) :
    create_user s p newId now = (.error ⟨400, "Phone already exists"⟩, s) := by
  simp [create_user, he, hp]

theorem create_user_success {s : State} {p : UserCreate} {newId : Id} {now : Nat}
    (he : _email_exists s p.email none = false)
    (hp : _phone_exists s p.phone none = false) :
    create_user s p newId now =
      (.ok (mkUser p newId now),
        { s with users := setv s.users newId (mkUser p newId now),
                 user_secrets := setv s.user_secrets newId p.password }) := by
  simp [create_user, he, hp, mkUser]

theorem update_user_not_found {s : State} {uid : Id} {patch : UserUpdate}
    (h : getv? s.users uid = none) :
    update_user s uid patch = (.error ⟨404, "User not found"⟩, s) := by
  simp [update_user, h]

theorem update_user_email_dup {s : State} {uid : Id} {patch : UserUpdate} {current : UserRead}
    (hcur : getv? s.users uid = some current)
    (he : userEmailDup s uid patch = true) :
    update_user s uid patch = (.error ⟨400, "Email already exists"⟩, s) := by
  simp [update_user, hcur, he]

theorem update_user_phone_dup {s : State} {uid : Id} {patch : UserUpdate} {current : UserRead}
    (hcur : getv? s.users uid = some current)
    (he : userEmailDup s uid patch = false)
    (hp : userPhoneDup s uid patch = true) :
    update_user s uid patch = (.error ⟨400, "Phone already exists"⟩, s) := by
  simp [update_user, hcur, he, hp]

theorem update_user_success {s : State} {uid : Id} {patch : UserUpdate} {current : UserRead}
    (hcur : getv? s.users uid = some current)
    (he : userEmailDup s uid patch = false)
    (hp : userPhoneDup s uid patch = false) :
    update_user s uid patch =
      (.ok (applyUserPatch current patch),
        { s with users := setv s.users uid (applyUserPatch current patch),
                 user_secrets := match patch.new_password with
                   | none => s.user_secrets
                   | some pw => setv s.user_secrets uid pw }) := by
  simp [update_user, hcur, he, hp]

theorem delete_user_not_found {s : State} {uid : Id}
    (h : getv? s.users uid = none) :
    delete_user s uid = (.error ⟨404, "User not found"⟩, s) := by
  simp [delete_user, h]

theorem delete_user_success {s : State} {uid : Id}
    (h : (getv? s.users uid).isSome = true) :
    delete_user s uid =
      (.ok (), { s with users := delv s.users uid,
                        user_secrets := delv s.user_secrets uid }) := by
  simp [delete_user, h]

theorem create_profile_no_user {s : State} {p : ProfileCreate} {newId : Id}
    (h : getv? s.users p.user_id = none) :
    create_profile s p newId = (.error ⟨400, "User does not exist"⟩, s) := by
  simp [create_profile, h]

theorem create_profile_has_profile {s : State} {p : ProfileCreate} {newId : Id}
    (hu : (getv? s.users p.user_id).isSome = true)
    (hidx : (getv? s.profiles_by_user p.user_id).isSome = true) :
    create_profile s p newId = (.error ⟨400, "User already has a profile"⟩, s) := by
  have : (getv? s.users p.user_id).isNone = false := by
    simp [Option.isNone_eq_false_iff, Option.isSome_iff_exists] at hu ⊢
    exact hu
  simp [create_profile, this, hidx]

theorem create_profile_username_dup {s : State} {p : ProfileCreate} {newId : Id}
    (hu : (getv? s.users p.user_id).isSome = true)
    (hidx : getv? s.profiles_by_user p.user_id = none)
    (hun : _username_exists s p.username none = true) :
    create_profile s p newId = (.error ⟨400, "Username already exists"⟩, s) := by
  have h1 : (getv? s.users p.user_id).isNone = false := by
    simp [Option.isNone_eq_false_iff, Option.isSome_iff_exists] at hu ⊢
    exact hu
  simp [create_profile, h1, hidx, hun]

theorem create_profile_success {s : State} {p : ProfileCreate} {newId : Id}
    (hu : (getv? s.users p.user_id).isSome = true)
    (hidx : getv? s.profiles_by_user p.user_id = none)
    (hun : _username_exists s p.username none = false) :
    create_profile s p newId =
      (.ok (mkProfile p newId),
        { s with profiles := setv s.profiles newId (mkProfile p newId),
                 profiles_by_user := setv s.profiles_by_user p.user_id newId }) := by
  have h1 : (getv? s.users p.user_id).isNone = false := by
    simp [Option.isNone_eq_false_iff, Option.isSome_iff_exists] at hu ⊢
    exact hu
  simp [create_profile, h1, hidx, hun, mkProfile]

theorem update_profile_not_found {s : State} {pid : Id} {patch : ProfileUpdate}
    (h : getv? s.profiles pid = none) :
    update_profile s pid patch = (.error ⟨404, "Profile not found"⟩, s) := by
  simp [update_profile, h]

theorem update_profile_username_dup {s : State} {pid : Id} {patch : ProfileUpdate}
    {current : ProfileRead}
    (hcur : getv? s.profiles pid = some current)
    (hdup : profileUsernameDup s pid patch = true) :
    update_profile s pid patch = (.error ⟨400, "Username already exists"⟩, s) := by
  simp [update_profile, hcur, hdup]

theorem update_profile_success {s : State} {pid : Id} {patch : ProfileUpdate}
    {current : ProfileRead}
    (hcur : getv? s.profiles pid = some current)
    (hdup : profileUsernameDup s pid patch = false) :
    update_profile s pid patch =
      (.ok (applyProfilePatch current patch),
        { s with profiles := setv s.profiles pid (applyProfilePatch current patch) }) := by
  simp [update_profile, hcur, hdup]

theorem delete_profile_not_found {s : State} {pid : Id}
    (h : getv? s.profiles pid = none) :
    delete_profile s pid = (.error ⟨404, "Profile not found"⟩, s) := by
  simp [delete_profile, h]

theorem delete_profile_success {s : State} {pid : Id} {prof : ProfileRead}
    (h : getv? s.profiles pid = some prof) :
    delete_profile s pid =
      (.ok (), { s with profiles := delv s.profiles pid,
                        profiles_by_user := delv s.profiles_by_user prof.user_id }) := by
  simp [delete_profile, h]

/-! ## The store invariant -/

theorem Inv_initState : Inv initState := by
  constructor <;> simp [initState, keys]

theorem Inv_create_user {s : State} {p : UserCreate} {newId : Id} {now : Nat}
    (hinv : Inv s) (hfresh : getv? s.users newId = none) :
    Inv (create_user s p newId now).2 := by
  cases he : _email_exists s p.email none with
  | true => rw [create_user_email_dup he]; exact hinv
  | false =>
    cases hp : _phone_exists s p.phone none with
    | true => rw [create_user_phone_dup he hp]; exact hinv
    | false =>
      rw [create_user_success he hp]
      have hnotin : newId ∉ keys s.users := getv?_eq_none_iff.mp hfresh
      have hsec : getv? s.user_secrets newId = none := by
        rw [getv?_eq_none_iff, hinv.secKeys]
        exact hnotin
      have hkeys : keys (setv s.users newId (mkUser p newId now)) =
          keys s.users ++ [newId] := keys_setv_of_absent _ hfresh
      have hmemE := not_email_exists_none he
      have hmemP := not_phone_exists_none hp
      refine ⟨?_, ?_, ?_, ?_, ?_, hinv.nodupP, hinv.idP, hinv.uniqUsername, hinv.nodupIdx⟩
      · rw [hkeys]
        simp [List.nodup_append, hinv.nodupU, List.disjoint_singleton]
        exact hnotin
      · intro kv hkv
        rcases mem_setv hinv.nodupU hkv with h1 | ⟨h2, _⟩
        · subst h1; rfl
        · exact hinv.idU kv h2
      · rw [keys_setv_of_absent _ hsec, hkeys, hinv.secKeys]
      · intro kv1 hkv1 kv2 hkv2 hne
        rcases mem_setv hinv.nodupU hkv1 with h1 | ⟨h1, h1k⟩ <;>
          rcases mem_setv hinv.nodupU hkv2 with h2 | ⟨h2, h2k⟩
        · rw [h1, h2] at hne; exact absurd rfl hne
        · subst h1
          exact fun heq => hmemE kv2 h2 heq.symm
        · subst h2
          exact fun heq => hmemE kv1 h1 heq
        · exact hinv.uniqEmail kv1 h1 kv2 h2 hne
      · intro kv1 hkv1 kv2 hkv2 hne
        rcases mem_setv hinv.nodupU hkv1 with h1 | ⟨h1, h1k⟩ <;>
          rcases mem_setv hinv.nodupU hkv2 with h2 | ⟨h2, h2k⟩
        · rw [h1, h2] at hne; exact absurd rfl hne
        · subst h1
          exact fun heq => hmemP kv2 h2 heq.symm
        · subst h2
          exact fun heq => hmemP kv1 h1 heq
        · exact hinv.uniqPhone kv1 h1 kv2 h2 hne

theorem Inv_update_user {s : State} {uid : Id} {patch : UserUpdate}
    (hinv : Inv s) (hwf : patch.wf = true) :
    Inv (update_user s uid patch).2 := by
  cases hcur : getv? s.users uid with
  | none => rw [update_user_not_found hcur]; exact hinv
  | some current =>
    cases he : userEmailDup s uid patch with
    | true => rw [update_user_email_dup hcur he]; exact hinv
    | false =>
      cases hp : userPhoneDup s uid patch with
      | true => rw [update_user_phone_dup hcur he hp]; exact hinv
      | false =>
        rw [update_user_success hcur he hp]
        have hcmem : (uid, current) ∈ s.users := mem_of_getv? hcur
        have hsomeU : (getv? s.users uid).isSome = true := by simp [hcur]
        have hkeys : keys (setv s.users uid (applyUserPatch current patch)) =
            keys s.users := keys_setv_of_present _ hsomeU
        have hidcur : current.id = uid := hinv.idU (uid, current) hcmem
        -- the merged record collides with no other live user
        have hemail : ∀ kv ∈ s.users, kv.1 ≠ uid →
            lower (applyUserPatch current patch).email ≠ lower kv.2.email := by
          intro kv hkv hne
          cases hpe : patch.email with
          | none =>
            simp only [applyUserPatch, hpe, Option.getD_none]
            exact hinv.uniqEmail (uid, current) hcmem kv hkv (fun h => hne h.symm)
          | some e =>
            have hewf : e ≠ "" := by
              simp only [UserUpdate.wf, hpe, Bool.and_eq_true, bne_iff_ne] at hwf
              exact hwf.1
            have hex : _email_exists s e (some uid) = false := by
              simp only [userEmailDup, hpe, Bool.and_eq_true] at he
              rcases Bool.and_eq_false_iff.mp he with h1 | h1
              · exact absurd (bne_iff_ne.mpr hewf) (by simp [h1])
              · exact h1
            simp only [applyUserPatch, hpe, Option.getD_some]
            intro heq
            have := not_email_exists_some hex kv hkv heq.symm
            exact hne (by rw [← this, hinv.idU kv hkv])
        have hphone : ∀ kv ∈ s.users, kv.1 ≠ uid →
            (applyUserPatch current patch).phone ≠ kv.2.phone := by
          intro kv hkv hne
          cases hpp : patch.phone with
          | none =>
            simp only [applyUserPatch, hpp, Option.getD_none]
            exact hinv.uniqPhone (uid, current) hcmem kv hkv (fun h => hne h.symm)
          | some ph =>
            have hpwf : ph ≠ "" := by
              simp only [UserUpdate.wf, hpp, Bool.and_eq_true, bne_iff_ne] at hwf
              exact hwf.2
            have hex : _phone_exists s ph (some uid) = false := by
              simp only [userPhoneDup, hpp, Bool.and_eq_true] at hp
              rcases Bool.and_eq_false_iff.mp hp with h1 | h1
              · exact absurd (bne_iff_ne.mpr hpwf) (by simp [h1])
              · exact h1
            simp only [applyUserPatch, hpp, Option.getD_some]
            intro heq
            have := not_phone_exists_some hex kv hkv heq.symm
            exact hne (by rw [← this, hinv.idU kv hkv])
        refine ⟨?_, ?_, ?_, ?_, ?_, hinv.nodupP, hinv.idP, hinv.uniqUsername, hinv.nodupIdx⟩
        · rw [hkeys]; exact hinv.nodupU
        · intro kv hkv
          rcases mem_setv hinv.nodupU hkv with h1 | ⟨h2, _⟩
          · rw [h1]
            show (applyUserPatch current patch).id = uid
            simp [applyUserPatch, hidcur]
          · exact hinv.idU kv h2
        · cases hpw : patch.new_password with
          | none => rw [hkeys]; exact hinv.secKeys
          | some pw =>
            have hsomeS : (getv? s.user_secrets uid).isSome = true := by
              rw [getv?_isSome_iff, hinv.secKeys, ← getv?_isSome_iff]
              exact hsomeU
            rw [keys_setv_of_present _ hsomeS, hkeys]
            exact hinv.secKeys
        · intro kv1 hkv1 kv2 hkv2 hne
          rcases mem_setv hinv.nodupU hkv1 with h1 | ⟨h1, h1k⟩ <;>
            rcases mem_setv hinv.nodupU hkv2 with h2 | ⟨h2, h2k⟩
          · rw [h1, h2] at hne; exact absurd rfl hne
          · rw [h1]; exact hemail kv2 h2 h2k
          · rw [h2]; exact fun heq => hemail kv1 h1 h1k heq.symm
          · exact hinv.uniqEmail kv1 h1 kv2 h2 hne
        · intro kv1 hkv1 kv2 hkv2 hne
          rcases mem_setv hinv.nodupU hkv1 with h1 | ⟨h1, h1k⟩ <;>
            rcases mem_setv hinv.nodupU hkv2 with h2 | ⟨h2, h2k⟩
          · rw [h1, h2] at hne; exact absurd rfl hne
          · rw [h1]; exact hphone kv2 h2 h2k
          · rw [h2]; exact fun heq => hphone kv1 h1 h1k heq.symm
          · exact hinv.uniqPhone kv1 h1 kv2 h2 hne

theorem Inv_delete_user {s : State} {uid : Id} (hinv : Inv s) :
    Inv (delete_user s uid).2 := by
  cases hcur : (getv? s.users uid).isSome with
  | false =>
    have : getv? s.users uid = none := by
      simpa [Option.isSome_iff_ne_none] using hcur
    rw [delete_user_not_found this]
    exact hinv
  | true =>
    rw [delete_user_success hcur]
    refine ⟨?_, ?_, ?_, ?_, ?_, hinv.nodupP, hinv.idP, hinv.uniqUsername, hinv.nodupIdx⟩
    · exact nodup_keys_delv uid hinv.nodupU
    · exact fun kv hkv => hinv.idU kv (mem_delv hkv)
    · rw [keys_delv, keys_delv, hinv.secKeys]
    · exact fun kv1 h1 kv2 h2 hne =>
        hinv.uniqEmail kv1 (mem_delv h1) kv2 (mem_delv h2) hne
    · exact fun kv1 h1 kv2 h2 hne =>
        hinv.uniqPhone kv1 (mem_delv h1) kv2 (mem_delv h2) hne

theorem Inv_create_profile {s : State} {p : ProfileCreate} {newId : Id}
    (hinv : Inv s) (hfresh : getv? s.profiles newId = none) :
    Inv (create_profile s p newId).2 := by
  cases hu : (getv? s.users p.user_id).isSome with
  | false =>
    have : getv? s.users p.user_id = none := by
      simpa [Option.isSome_iff_ne_none] using hu
    rw [create_profile_no_user this]
    exact hinv
  | true =>
    cases hidx : (getv? s.profiles_by_user p.user_id).isSome with
    | true =>
      rw [create_profile_has_profile hu hidx]
      exact hinv
    | false =>
      have hidx' : getv? s.profiles_by_user p.user_id = none := by
        simpa [Option.isSome_iff_ne_none] using hidx
      cases hun : _username_exists s p.username none with
      | true =>
        rw [create_profile_username_dup hu hidx' hun]
        exact hinv
      | false =>
        rw [create_profile_success hu hidx' hun]
        have hnotin : newId ∉ keys s.profiles := getv?_eq_none_iff.mp hfresh
        have hidxnotin : p.user_id ∉ keys s.profiles_by_user :=
          getv?_eq_none_iff.mp hidx'
        have hmemU := not_username_exists_none hun
        refine ⟨hinv.nodupU, hinv.idU, hinv.secKeys, hinv.uniqEmail, hinv.uniqPhone,
          ?_, ?_, ?_, ?_⟩
        · rw [keys_setv_of_absent _ hfresh]
          simp [List.nodup_append, hinv.nodupP, List.disjoint_singleton]
          exact hnotin
        · intro kv hkv
          rcases mem_setv hinv.nodupP hkv with h1 | ⟨h2, _⟩
          · subst h1; rfl
          · exact hinv.idP kv h2
        · intro kv1 hkv1 kv2 hkv2 hne
          rcases mem_setv hinv.nodupP hkv1 with h1 | ⟨h1, h1k⟩ <;>
            rcases mem_setv hinv.nodupP hkv2 with h2 | ⟨h2, h2k⟩
          · rw [h1, h2] at hne; exact absurd rfl hne
          · subst h1
            exact fun heq => hmemU kv2 h2 heq.symm
          · subst h2
            exact fun heq => hmemU kv1 h1 heq
          · exact hinv.uniqUsername kv1 h1 kv2 h2 hne
        · rw [keys_setv_of_absent _ hidx']
          simp [List.nodup_append, hinv.nodupIdx, List.disjoint_singleton]
          exact hidxnotin

theorem Inv_update_profile {s : State} {pid : Id} {patch : ProfileUpdate}
    (hinv : Inv s) (hwf : patch.wf = true) :
    Inv (update_profile s pid patch).2 := by
  cases hcur : getv? s.profiles pid with
  | none => rw [update_profile_not_found hcur]; exact hinv
  | some current =>
    cases hdup : profileUsernameDup s pid patch with
    | true => rw [update_profile_username_dup hcur hdup]; exact hinv
    | false =>
      rw [update_profile_success hcur hdup]
      have hcmem : (pid, current) ∈ s.profiles := mem_of_getv? hcur
      have hsomeP : (getv? s.profiles pid).isSome = true := by simp [hcur]
      have hkeys : keys (setv s.profiles pid (applyProfilePatch current patch)) =
          keys s.profiles := keys_setv_of_present _ hsomeP
      have hidcur : current.id = pid := hinv.idP (pid, current) hcmem
      have husername : ∀ kv ∈ s.profiles, kv.1 ≠ pid →
          lower (applyProfilePatch current patch).username ≠ lower kv.2.username := by
        intro kv hkv hne
        cases hpu : patch.username with
        | none =>
          simp only [applyProfilePatch, hpu, Option.getD_none]
          exact hinv.uniqUsername (pid, current) hcmem kv hkv (fun h => hne h.symm)
        | some un =>
          have hunwf : un ≠ "" := by
            simpa only [ProfileUpdate.wf, hpu, bne_iff_ne] using hwf
          have hex : _username_exists s un (some pid) = false := by
            simp only [profileUsernameDup, hpu] at hdup
            rcases Bool.and_eq_false_iff.mp hdup with h1 | h1
            · exact absurd (bne_iff_ne.mpr hunwf) (by simp [h1])
            · exact h1
          simp only [applyProfilePatch, hpu, Option.getD_some]
          intro heq
          exact hne (not_username_exists_some hex kv hkv heq.symm)
      refine ⟨hinv.nodupU, hinv.idU, hinv.secKeys, hinv.uniqEmail, hinv.uniqPhone,
        ?_, ?_, ?_, hinv.nodupIdx⟩
      · rw [hkeys]; exact hinv.nodupP
      · intro kv hkv
        rcases mem_setv hinv.nodupP hkv with h1 | ⟨h2, _⟩
        · rw [h1]
          show (applyProfilePatch current patch).id = pid
          simp [applyProfilePatch, hidcur]
        · exact hinv.idP kv h2
      · intro kv1 hkv1 kv2 hkv2 hne
        rcases mem_setv hinv.nodupP hkv1 with h1 | ⟨h1, h1k⟩ <;>
          rcases mem_setv hinv.nodupP hkv2 with h2 | ⟨h2, h2k⟩
        · rw [h1, h2] at hne; exact absurd rfl hne
        · rw [h1]; exact husername kv2 h2 h2k
        · rw [h2]; exact fun heq => husername kv1 h1 h1k heq.symm
        · exact hinv.uniqUsername kv1 h1 kv2 h2 hne

theorem Inv_delete_profile {s : State} {pid : Id} (hinv : Inv s) :
    Inv (delete_profile s pid).2 := by
  cases hcur : getv? s.profiles pid with
  | none => rw [delete_profile_not_found hcur]; exact hinv
  | some prof =>
    rw [delete_profile_success hcur]
    refine ⟨hinv.nodupU, hinv.idU, hinv.secKeys, hinv.uniqEmail, hinv.uniqPhone,
      ?_, ?_, ?_, ?_⟩
    · exact nodup_keys_delv pid hinv.nodupP
    · exact fun kv hkv => hinv.idP kv (mem_delv hkv)
    · exact fun kv1 h1 kv2 h2 hne =>
        hinv.uniqUsername kv1 (mem_delv h1) kv2 (mem_delv h2) hne
    · exact nodup_keys_delv prof.user_id hinv.nodupIdx

/-- Every admissible request preserves the invariant. -/
theorem Inv_apply {s : State} {a : Act} (hinv : Inv s) (hok : Act.ok s a = true) :
    Inv (Act.apply s a) := by
  cases a with
  | createUser p i n =>
    simp only [Act.ok, Bool.and_eq_true, Option.isNone_iff_eq_none] at hok
    exact Inv_create_user hinv hok.2
  | updateUser i patch =>
    simp only [Act.ok] at hok
    exact Inv_update_user hinv hok
  | deleteUser i => exact Inv_delete_user hinv
  | createProfile p i =>
    simp only [Act.ok, Bool.and_eq_true, Option.isNone_iff_eq_none] at hok
    exact Inv_create_profile hinv hok.2
  | updateProfile i patch =>
    simp only [Act.ok] at hok
    exact Inv_update_profile hinv hok
  | deleteProfile i => exact Inv_delete_profile hinv

theorem trace_inv {s t : State} {acts : List Act}
    (htr : Trace s acts t) (hinv : Inv s) : Inv t := by
  induction htr with
  | nil => exact hinv
  | cons a hok _ ih => exact ih (Inv_apply hinv hok)

/-- Every reachable state satisfies the invariant. -/
theorem reachable_inv {s : State} (h : Reachable s) : Inv s := by
  rcases h with ⟨acts, htr⟩
  exact trace_inv htr Inv_initState

/-! ## The secondary index under traces that never patch `user_id` -/

theorem IndexInv_initState : IndexInv initState := by
  intro kv hkv
  simp [initState] at hkv

/-- `create_user` never touches the profile store or the index. -/
theorem create_user_profile_frame (s : State) (p : UserCreate) (i : Id) (n : Nat) :
    (create_user s p i n).2.profiles = s.profiles ∧
      (create_user s p i n).2.profiles_by_user = s.profiles_by_user := by
  cases he : _email_exists s p.email none with
  | true => rw [create_user_email_dup he]; exact ⟨rfl, rfl⟩
  | false =>
    cases hp : _phone_exists s p.phone none with
    | true => rw [create_user_phone_dup he hp]; exact ⟨rfl, rfl⟩
    | false => rw [create_user_success he hp]; exact ⟨rfl, rfl⟩

/-- `update_user` never touches the profile store or the index. -/
theorem update_user_profile_frame (s : State) (i : Id) (patch : UserUpdate) :
    (update_user s i patch).2.profiles = s.profiles ∧
      (update_user s i patch).2.profiles_by_user = s.profiles_by_user := by
  cases hcur : getv? s.users i with
  | none => rw [update_user_not_found hcur]; exact ⟨rfl, rfl⟩
  | some current =>
    cases he : userEmailDup s i patch with
    | true => rw [update_user_email_dup hcur he]; exact ⟨rfl, rfl⟩
    | false =>
      cases hp : userPhoneDup s i patch with
      | true => rw [update_user_phone_dup hcur he hp]; exact ⟨rfl, rfl⟩
      | false => rw [update_user_success hcur he hp]; exact ⟨rfl, rfl⟩

/-- `delete_user` never touches the profile store or the index: user
deletion does not cascade. -/
theorem delete_user_profile_frame (s : State) (i : Id) :
    (delete_user s i).2.profiles = s.profiles ∧
      (delete_user s i).2.profiles_by_user = s.profiles_by_user := by
  cases hcur : (getv? s.users i).isSome with
  | false =>
    have : getv? s.users i = none := by
      simpa [Option.isSome_iff_ne_none] using hcur
    rw [delete_user_not_found this]; exact ⟨rfl, rfl⟩
  | true => rw [delete_user_success hcur]; exact ⟨rfl, rfl⟩

theorem IndexInv_apply {s : State} {a : Act} (hinv : Inv s) (hidx : IndexInv s)
    (hnp : a.noUidPatch = true) : IndexInv (Act.apply s a) := by
  cases a with
  | createUser p i n =>
    have hf := create_user_profile_frame s p i n
    show IndexInv (create_user s p i n).2
    intro kv hkv
    rw [hf.1] at hkv
    rw [hf.2]
    exact hidx kv hkv
  | updateUser i patch =>
    have hf := update_user_profile_frame s i patch
    show IndexInv (update_user s i patch).2
    intro kv hkv
    rw [hf.1] at hkv
    rw [hf.2]
    exact hidx kv hkv
  | deleteUser i =>
    have hf := delete_user_profile_frame s i
    show IndexInv (delete_user s i).2
    intro kv hkv
    rw [hf.1] at hkv
    rw [hf.2]
    exact hidx kv hkv
  | createProfile p i =>
    show IndexInv (create_profile s p i).2
    cases hu : (getv? s.users p.user_id).isSome with
    | false =>
      have : getv? s.users p.user_id = none := by
        simpa [Option.isSome_iff_ne_none] using hu
      rw [create_profile_no_user this]; exact hidx
    | true =>
      cases hpb : (getv? s.profiles_by_user p.user_id).isSome with
      | true => rw [create_profile_has_profile hu hpb]; exact hidx
      | false =>
        have hpb' : getv? s.profiles_by_user p.user_id = none := by
          simpa [Option.isSome_iff_ne_none] using hpb
        cases hun : _username_exists s p.username none with
        | true => rw [create_profile_username_dup hu hpb' hun]; exact hidx
        | false =>
          rw [create_profile_success hu hpb' hun]
          intro kv hkv
          rcases mem_setv hinv.nodupP hkv with h1 | ⟨h2, _⟩
          · subst h1
            show getv? (setv s.profiles_by_user p.user_id i) (mkProfile p i).user_id =
              some i
            simp only [mkProfile]
            exact getv?_setv_self _ _ _
          · show getv? (setv s.profiles_by_user p.user_id i) kv.2.user_id = some kv.1
            have hne : kv.2.user_id ≠ p.user_id := by
              intro heq
              have := hidx kv h2
              rw [heq, hpb'] at this
              exact Option.noConfusion this
            rw [getv?_setv_ne _ _ _ _ hne]
            exact hidx kv h2
  | updateProfile i patch =>
    show IndexInv (update_profile s i patch).2
    have hpu : patch.user_id = none := by
      simpa [Act.noUidPatch, Option.isNone_iff_eq_none] using hnp
    cases hcur : getv? s.profiles i with
    | none => rw [update_profile_not_found hcur]; exact hidx
    | some current =>
      cases hdup : profileUsernameDup s i patch with
      | true => rw [update_profile_username_dup hcur hdup]; exact hidx
      | false =>
        rw [update_profile_success hcur hdup]
        intro kv hkv
        rcases mem_setv hinv.nodupP hkv with h1 | ⟨h2, _⟩
        · subst h1
          show getv? s.profiles_by_user (applyProfilePatch current patch).user_id =
            some i
          simp only [applyProfilePatch, hpu, Option.getD_none]
          exact hidx (i, current) (mem_of_getv? hcur)
        · exact hidx kv h2
  | deleteProfile i =>
    show IndexInv (delete_profile s i).2
    cases hcur : getv? s.profiles i with
    | none => rw [delete_profile_not_found hcur]; exact hidx
    | some prof =>
      rw [delete_profile_success hcur]
      intro kv hkv
      have hmem : kv ∈ s.profiles := mem_delv hkv
      have hkne : kv.1 ≠ i := mem_delv_ne hinv.nodupP hkv
      have hne : kv.2.user_id ≠ prof.user_id := by
        intro heq
        have h1 := hidx kv hmem
        have h2 := hidx (i, prof) (mem_of_getv? hcur)
        rw [heq] at h1
        rw [h1] at h2
        exact hkne (Option.some.inj h2)
      show getv? (delv s.profiles_by_user prof.user_id) kv.2.user_id = some kv.1
      rw [getv?_delv_ne _ _ _ hne]
      exact hidx kv hmem

theorem Trace.indexInv {s t : State} {acts : List Act}
    (htr : Trace s acts t) (hinv : Inv s) (hidx : IndexInv s)
    (hnp : ∀ a ∈ acts, a.noUidPatch = true) : IndexInv t := by
  induction htr with
  | nil => exact hidx
  | cons a hok htail ih =>
    exact ih (Inv_apply hinv hok)
      (IndexInv_apply hinv hidx (hnp a (List.mem_cons_self _ _)))
      (fun b hb => hnp b (List.mem_cons_of_mem _ hb))

/-! ## Further supporting lemmas -/

theorem eq_of_mem_same_key {α : Type} {m : List (Id × α)} {kv1 kv2 : Id × α}
    (hnd : (keys m).Nodup) (h1 : kv1 ∈ m) (h2 : kv2 ∈ m) (hk : kv1.1 = kv2.1) :
    kv1 = kv2 := by
  have g1 : getv? m kv1.1 = some kv1.2 := getv?_of_mem hnd h1
  have g2 : getv? m kv2.1 = some kv2.2 := getv?_of_mem hnd h2
  rw [hk] at g1
  rw [g1] at g2
  have : kv1.2 = kv2.2 := Option.some.inj g2
  exact Prod.ext hk this

/-- Every user returned by `list_users` is a stored user record. -/
theorem list_users_subset {s : State} {fn fe fp ft : Option String} {u : UserRead}
    (h : u ∈ list_users s fn fe fp ft) : u ∈ values s.users := by
  simp only [list_users] at h
  cases fn <;> cases fe <;> cases fp <;> cases ft <;> simp only at h <;>
    repeat
      first
      | exact h
      | replace h := List.mem_of_mem_filter h

/-- `create_profile` never touches the user stores. -/
theorem create_profile_user_frame (s : State) (p : ProfileCreate) (i : Id) :
    (create_profile s p i).2.users = s.users ∧
      (create_profile s p i).2.user_secrets = s.user_secrets := by
  cases hu : (getv? s.users p.user_id).isSome with
  | false =>
    have : getv? s.users p.user_id = none := by
      simpa [Option.isSome_iff_ne_none] using hu
    rw [create_profile_no_user this]; exact ⟨rfl, rfl⟩
  | true =>
    cases hpb : (getv? s.profiles_by_user p.user_id).isSome with
    | true => rw [create_profile_has_profile hu hpb]; exact ⟨rfl, rfl⟩
    | false =>
      have hpb' : getv? s.profiles_by_user p.user_id = none := by
        simpa [Option.isSome_iff_ne_none] using hpb
      cases hun : _username_exists s p.username none with
      | true => rw [create_profile_username_dup hu hpb' hun]; exact ⟨rfl, rfl⟩
      | false => rw [create_profile_success hu hpb' hun]; exact ⟨rfl, rfl⟩

/-- `update_profile` never touches the user stores. -/
theorem update_profile_user_frame (s : State) (i : Id) (patch : ProfileUpdate) :
    (update_profile s i patch).2.users = s.users ∧
      (update_profile s i patch).2.user_secrets = s.user_secrets := by
  cases hcur : getv? s.profiles i with
  | none => rw [update_profile_not_found hcur]; exact ⟨rfl, rfl⟩
  | some current =>
    cases hdup : profileUsernameDup s i patch with
    | true => rw [update_profile_username_dup hcur hdup]; exact ⟨rfl, rfl⟩
    | false => rw [update_profile_success hcur hdup]; exact ⟨rfl, rfl⟩

/-- `delete_profile` never touches the user stores. -/
theorem delete_profile_user_frame (s : State) (i : Id) :
    (delete_profile s i).2.users = s.users ∧
      (delete_profile s i).2.user_secrets = s.user_secrets := by
  cases hcur : getv? s.profiles i with
  | none => rw [delete_profile_not_found hcur]; exact ⟨rfl, rfl⟩
  | some prof => rw [delete_profile_success hcur]; exact ⟨rfl, rfl⟩

/-- A user id absent from the user store stays absent under any admissible
request whose generated user id differs from it. -/
theorem absent_user_apply {s : State} {a : Act} {uid : Id}
    (hinv : Inv s) (habs : getv? s.users uid = none)
    (hgen : ∀ p newId now, a = Act.createUser p newId now → newId ≠ uid) :
    getv? (Act.apply s a).users uid = none := by
  cases a with
  | createUser p i n =>
    have hne : i ≠ uid := hgen p i n rfl
    show getv? (create_user s p i n).2.users uid = none
    cases he : _email_exists s p.email none with
    | true => rw [create_user_email_dup he]; exact habs
    | false =>
      cases hp : _phone_exists s p.phone none with
      | true => rw [create_user_phone_dup he hp]; exact habs
      | false =>
        rw [create_user_success he hp]
        show getv? (setv s.users i (mkUser p i n)) uid = none
        rw [getv?_setv_ne _ _ _ _ (fun h => hne h.symm)]
        exact habs
  | updateUser i patch =>
    show getv? (update_user s i patch).2.users uid = none
    cases hcur : getv? s.users i with
    | none => rw [update_user_not_found hcur]; exact habs
    | some current =>
      have hne : uid ≠ i := by
        intro h
        rw [h, hcur] at habs
        exact Option.noConfusion habs
      cases he : userEmailDup s i patch with
      | true => rw [update_user_email_dup hcur he]; exact habs
      | false =>
        cases hp : userPhoneDup s i patch with
        | true => rw [update_user_phone_dup hcur he hp]; exact habs
        | false =>
          rw [update_user_success hcur he hp]
          show getv? (setv s.users i (applyUserPatch current patch)) uid = none
          rw [getv?_setv_ne _ _ _ _ hne]
          exact habs
  | deleteUser i =>
    show getv? (delete_user s i).2.users uid = none
    cases hcur : (getv? s.users i).isSome with
    | false =>
      have : getv? s.users i = none := by
        simpa [Option.isSome_iff_ne_none] using hcur
      rw [delete_user_not_found this]; exact habs
    | true =>
      rw [delete_user_success hcur]
      show getv? (delv s.users i) uid = none
      by_cases h : uid = i
      · subst h; exact getv?_delv_self hinv.nodupU
      · rw [getv?_delv_ne _ _ _ h]; exact habs
  | createProfile p i =>
    show getv? (create_profile s p i).2.users uid = none
    rw [(create_profile_user_frame s p i).1]
    exact habs
  | updateProfile i patch =>
    show getv? (update_profile s i patch).2.users uid = none
    rw [(update_profile_user_frame s i patch).1]
    exact habs
  | deleteProfile i =>
    show getv? (delete_profile s i).2.users uid = none
    rw [(delete_profile_user_frame s i).1]
    exact habs

/-- The absence of a user id is preserved along any admissible trace that
never generates that id ("id generation precludes" re-use in the source). -/
theorem absent_user_trace {s t : State} {acts : List Act} {uid : Id}
    (htr : Trace s acts t) (hinv : Inv s) (habs : getv? s.users uid = none)
    (hgen : ∀ a ∈ acts, ∀ p newId now, a = Act.createUser p newId now → newId ≠ uid) :
    getv? t.users uid = none := by
  induction htr with
  | nil => exact habs
  | cons a hok htail ih =>
    exact ih (Inv_apply hinv hok)
      (absent_user_apply hinv habs (hgen a (List.mem_cons_self _ _)))
      (fun b hb => hgen b (List.mem_cons_of_mem _ hb))

/-! ## Concrete request data used by the closed instances -/

theorem baseTrace : Trace initState baseActs baseState :=
  .cons _ (by decide) (.cons _ (by decide) (.cons _ (by decide) (.nil _)))

theorem baseState_reachable : Reachable baseState := ⟨baseActs, baseTrace⟩

theorem oneUserState_reachable : Reachable oneUserState :=
  ⟨[.createUser payloadA 1 0], .cons _ (by decide) (.nil _)⟩

theorem c2State_reachable : Reachable c2State :=
  ⟨c2Acts, .cons _ (by decide) (.cons _ (by decide) (.cons _ (by decide)
    (.cons _ (by decide) (.cons _ (by decide) (.nil _)))))⟩

/-! ## Claims -/

/-- C1: at every reachable state of the stores — after any sequence of
admissible Create/Update/Delete requests starting from the empty stores —
no two live users share an email compared case-insensitively, and no two
live users share a phone number: any two stored user entries agreeing on
either are the same entry. -/
theorem C1_live_user_email_phone_unique {s : State} (hs : Reachable s) :
    ∀ kv1 ∈ s.users, ∀ kv2 ∈ s.users,
      (lower kv1.2.email = lower kv2.2.email ∨ kv1.2.phone = kv2.2.phone) →
      kv1 = kv2 := by
  intro kv1 h1 kv2 h2 hshare
  have hinv := reachable_inv hs
  by_cases hk : kv1.1 = kv2.1
  · exact eq_of_mem_same_key hinv.nodupU h1 h2 hk
  · rcases hshare with he | hp
    · exact absurd he (hinv.uniqEmail kv1 h1 kv2 h2 hk)
    · exact absurd hp (hinv.uniqPhone kv1 h1 kv2 h2 hk)

/-- Witness for C1 at the concrete reachable state `baseState`: any stored
entry sharing user 1's email must be user 1's entry itself. -/
theorem C1_witness : (1, mkUser payloadA 1 0) = ((1 : Id), mkUser payloadA 1 0) :=
  C1_live_user_email_phone_unique baseState_reachable
    (1, mkUser payloadA 1 0) (by decide)
    (1, mkUser payloadA 1 0) (by decide)
    (Or.inl rfl)

/-- C2 counterexample: `c2State` is reachable, yet two distinct live
profiles (ids 10 and 11) share the owning `user_id` 1, because
`PATCH /profiles/11` silently applied a `user_id` change. -/
theorem C2_counterexample :
    Reachable c2State ∧
    ∃ kv1 ∈ c2State.profiles, ∃ kv2 ∈ c2State.profiles,
      kv1.1 ≠ kv2.1 ∧ kv1.2.user_id = kv2.2.user_id :=
  ⟨c2State_reachable, by decide⟩

/-- C2 (amended): at every reachable state no two live profiles share a
username compared case-insensitively; and along any admissible trace in
which no profile patch carries `user_id`, each user id is the owning
`user_id` of at most one live profile. -/
theorem C2_profile_uniqueness :
    (∀ s : State, Reachable s → ∀ kv1 ∈ s.profiles, ∀ kv2 ∈ s.profiles,
      lower kv1.2.username = lower kv2.2.username → kv1 = kv2) ∧
    (∀ (s : State) (acts : List Act), Trace initState acts s →
      (∀ a ∈ acts, a.noUidPatch = true) →
      ∀ kv1 ∈ s.profiles, ∀ kv2 ∈ s.profiles,
        kv1.2.user_id = kv2.2.user_id → kv1 = kv2) := by
  constructor
  · intro s hs kv1 h1 kv2 h2 hn
    have hinv := reachable_inv hs
    by_cases hk : kv1.1 = kv2.1
    · exact eq_of_mem_same_key hinv.nodupP h1 h2 hk
    · exact absurd hn (hinv.uniqUsername kv1 h1 kv2 h2 hk)
  · intro s acts htr hnp kv1 h1 kv2 h2 hu
    have hinv : Inv s := trace_inv htr Inv_initState
    have hidx : IndexInv s := htr.indexInv Inv_initState IndexInv_initState hnp
    have g1 := hidx kv1 h1
    have g2 := hidx kv2 h2
    rw [hu] at g1
    rw [g1] at g2
    exact eq_of_mem_same_key hinv.nodupP h1 h2 (Option.some.inj g2)

/-- Witness for the amended C2: the username part at the reachable state
`c2State`, the one-owner part along the `user_id`-patch-free trace
`baseActs`, each applied to concrete profile entries. -/
theorem C2_witness :
    ((11 : Id), ProfileRead.mk 11 1 "bob" "yo") = (11, ProfileRead.mk 11 1 "bob" "yo") ∧
    ((10 : Id), mkProfile profPayloadA 10) = (10, mkProfile profPayloadA 10) :=
  ⟨C2_profile_uniqueness.1 c2State c2State_reachable
      (11, ProfileRead.mk 11 1 "bob" "yo") (by decide)
      (11, ProfileRead.mk 11 1 "bob" "yo") (by decide) rfl,
   C2_profile_uniqueness.2 baseState baseActs baseTrace (by decide)
      (10, mkProfile profPayloadA 10) (by decide)
      (10, mkProfile profPayloadA 10) (by decide) rfl⟩

/-- C3 counterexample: in the reachable state `baseState` user 1 is live
and owns profile 10, deleting user 1 succeeds, yet the user-to-profile
mapping entry for user 1 is still present afterwards — `delete_user` does
not remove the secondary-index entry as the claim states. -/
theorem C3_counterexample :
    Reachable baseState ∧
    (getv? baseState.users 1).isSome = true ∧
    getv? baseState.profiles_by_user 1 = some 10 ∧
    (delete_user baseState 1).1 = Except.ok () ∧
    getv? (delete_user baseState 1).2.profiles_by_user 1 = some 10 :=
  ⟨baseState_reachable, by decide, by decide, by decide, by decide⟩

/-- C3 (amended): deleting a live user succeeds and removes the public
record and the secret record, but it leaves both the profile store and the
user-to-profile mapping entirely unchanged — neither the owned profile nor
its index entry is deleted. -/
theorem C3_delete_user_no_cascade {s : State} (hs : Reachable s) {uid : Id}
    {u : UserRead} (hu : getv? s.users uid = some u) :
    (delete_user s uid).1 = Except.ok () ∧
    getv? (delete_user s uid).2.users uid = none ∧
    getv? (delete_user s uid).2.user_secrets uid = none ∧
    (delete_user s uid).2.profiles = s.profiles ∧
    (delete_user s uid).2.profiles_by_user = s.profiles_by_user := by
  have hinv := reachable_inv hs
  have hsome : (getv? s.users uid).isSome = true := by simp [hu]
  rw [delete_user_success hsome]
  have hsec : (keys s.user_secrets).Nodup := by
    rw [hinv.secKeys]
    exact hinv.nodupU
  exact ⟨rfl, getv?_delv_self hinv.nodupU, getv?_delv_self hsec, rfl, rfl⟩

/-- Witness for the amended C3: deleting user 1 in `baseState`. -/
theorem C3_witness :
    (delete_user baseState 1).1 = Except.ok () ∧
    getv? (delete_user baseState 1).2.users 1 = none ∧
    getv? (delete_user baseState 1).2.user_secrets 1 = none ∧
    (delete_user baseState 1).2.profiles = baseState.profiles ∧
    (delete_user baseState 1).2.profiles_by_user = baseState.profiles_by_user :=
  C3_delete_user_no_cascade baseState_reachable
    (show getv? baseState.users 1 = some (mkUser payloadA 1 0) by decide)

/-- C4: in the reachable state `baseState`, profile 10 is owned by user 1;
a profile patch carrying `user_id = 2` is neither rejected nor ignored —
the update succeeds and the stored profile's owner silently becomes 2,
contradicting the claim (and the source's own comment that `user_id` is
immutable on update). -/
theorem C4_user_id_silently_applied :
    Reachable baseState ∧
    getv? baseState.profiles 10 = some (mkProfile profPayloadA 10) ∧
    (mkProfile profPayloadA 10).user_id = 1 ∧
    (update_profile baseState 10 { user_id := some 2, username := none, bio := none }).1 =
      Except.ok { id := 10, user_id := 2, username := "alice", bio := "hi" } ∧
    getv? (update_profile baseState 10
        { user_id := some 2, username := none, bio := none }).2.profiles 10 =
      some { id := 10, user_id := 2, username := "alice", bio := "hi" } :=
  ⟨baseState_reachable, by decide, by decide, by decide, by decide⟩

/-- C5: partial updates are frame-preserving — on a successful user or
profile update, every field of the stored record that is absent from the
patch is identical before and after (for users this includes `id` and
`created_at`, which are never patchable), and the returned record is
exactly the newly stored one. -/
theorem C5_sparse_update_frame :
    (∀ (s : State) (uid : Id) (patch : UserUpdate) (current u' : UserRead),
      getv? s.users uid = some current →
      (update_user s uid patch).1 = Except.ok u' →
      u'.id = current.id ∧ u'.created_at = current.created_at ∧
      (patch.name = none → u'.name = current.name) ∧
      (patch.email = none → u'.email = current.email) ∧
      (patch.phone = none → u'.phone = current.phone) ∧
      (patch.membership_tier = none → u'.membership_tier = current.membership_tier) ∧
      getv? (update_user s uid patch).2.users uid = some u') ∧
    (∀ (s : State) (pid : Id) (patch : ProfileUpdate) (current p' : ProfileRead),
      getv? s.profiles pid = some current →
      (update_profile s pid patch).1 = Except.ok p' →
      p'.id = current.id ∧
      (patch.user_id = none → p'.user_id = current.user_id) ∧
      (patch.username = none → p'.username = current.username) ∧
      (patch.bio = none → p'.bio = current.bio) ∧
      getv? (update_profile s pid patch).2.profiles pid = some p') := by
  constructor
  · intro s uid patch current u' hcur hok
    cases he : userEmailDup s uid patch with
    | true =>
      rw [update_user_email_dup hcur he] at hok
      exact absurd hok (by simp)
    | false =>
      cases hp : userPhoneDup s uid patch with
      | true =>
        rw [update_user_phone_dup hcur he hp] at hok
        exact absurd hok (by simp)
      | false =>
        rw [update_user_success hcur he hp] at hok
        have hu' : applyUserPatch current patch = u' := by simpa using hok
        subst hu'
        refine ⟨rfl, rfl, ?_, ?_, ?_, ?_, ?_⟩
        · intro h; simp [applyUserPatch, h]
        · intro h; simp [applyUserPatch, h]
        · intro h; simp [applyUserPatch, h]
        · intro h; simp [applyUserPatch, h]
        · rw [update_user_success hcur he hp]
          exact getv?_setv_self _ _ _
  · intro s pid patch current p' hcur hok
    cases hd : profileUsernameDup s pid patch with
    | true =>
      rw [update_profile_username_dup hcur hd] at hok
      exact absurd hok (by simp)
    | false =>
      rw [update_profile_success hcur hd] at hok
      have hp' : applyProfilePatch current patch = p' := by simpa using hok
      subst hp'
      refine ⟨rfl, ?_, ?_, ?_, ?_⟩
      · intro h; simp [applyProfilePatch, h]
      · intro h; simp [applyProfilePatch, h]
      · intro h; simp [applyProfilePatch, h]
      · rw [update_profile_success hcur hd]
        exact getv?_setv_self _ _ _

/-- Witness for C5: patching only `name` of user 1 in `baseState` leaves
email, phone, tier, id, creation time unchanged; patching only `bio` of
profile 10 leaves `user_id` and `username` unchanged. -/
theorem C5_witness :
    (applyUserPatch (mkUser payloadA 1 0) namePatch).id = (mkUser payloadA 1 0).id ∧
    (applyUserPatch (mkUser payloadA 1 0) namePatch).email = (mkUser payloadA 1 0).email ∧
    (applyUserPatch (mkUser payloadA 1 0) namePatch).phone = (mkUser payloadA 1 0).phone ∧
    (applyUserPatch (mkUser payloadA 1 0) namePatch).membership_tier =
      (mkUser payloadA 1 0).membership_tier ∧
    (applyProfilePatch (mkProfile profPayloadA 10) bioPatch).user_id =
      (mkProfile profPayloadA 10).user_id ∧
    (applyProfilePatch (mkProfile profPayloadA 10) bioPatch).username =
      (mkProfile profPayloadA 10).username := by
  have h1 := C5_sparse_update_frame.1 baseState 1 namePatch (mkUser payloadA 1 0)
    (applyUserPatch (mkUser payloadA 1 0) namePatch) (by decide) (by decide)
  have h2 := C5_sparse_update_frame.2 baseState 10 bioPatch (mkProfile profPayloadA 10)
    (applyProfilePatch (mkProfile profPayloadA 10) bioPatch) (by decide) (by decide)
  exact ⟨h1.1, h1.2.2.2.1 rfl, h1.2.2.2.2.1 rfl, h1.2.2.2.2.2.1 rfl,
    h2.2.1 rfl, h2.2.2.1 rfl⟩

/-- C6: user creation fails with a 400 ValidationError whenever the
requested email (case-insensitively) or phone is already used by a live
user, leaving the stores unchanged; otherwise it succeeds, stores the
public record (which by construction carries no password) under the
generated id, stores the password separately in the secret store, returns
exactly the stored public record, and touches nothing else. -/
theorem C6_create_user_spec (s : State) (p : UserCreate) (newId : Id) (now : Nat) :
    ((_email_exists s p.email none || _phone_exists s p.phone none) = true →
      (∃ d, (create_user s p newId now).1 = Except.error ⟨400, d⟩) ∧
      (create_user s p newId now).2 = s) ∧
    (_email_exists s p.email none = false → _phone_exists s p.phone none = false →
      (create_user s p newId now).1 = Except.ok (mkUser p newId now) ∧
      getv? (create_user s p newId now).2.users newId = some (mkUser p newId now) ∧
      getv? (create_user s p newId now).2.user_secrets newId = some p.password ∧
      (create_user s p newId now).2.profiles = s.profiles ∧
      (create_user s p newId now).2.profiles_by_user = s.profiles_by_user) := by
  constructor
  · intro hdup
    cases he : _email_exists s p.email none with
    | true => rw [create_user_email_dup he]; exact ⟨⟨_, rfl⟩, rfl⟩
    | false =>
      have hp : _phone_exists s p.phone none = true := by
        rw [he] at hdup
        simpa using hdup
      rw [create_user_phone_dup he hp]
      exact ⟨⟨_, rfl⟩, rfl⟩
  · intro he hp
    rw [create_user_success he hp]
    exact ⟨rfl, getv?_setv_self _ _ _, getv?_setv_self _ _ _, rfl, rfl⟩

/-- Witness for C6: creating user 2 in `oneUserState` succeeds with all the
stated effects; creating a duplicate of user 1's email there fails with a
400 and leaves the stores untouched. -/
theorem C6_witness :
    ((create_user oneUserState payloadB 2 0).1 = Except.ok (mkUser payloadB 2 0) ∧
      getv? (create_user oneUserState payloadB 2 0).2.users 2 =
        some (mkUser payloadB 2 0) ∧
      getv? (create_user oneUserState payloadB 2 0).2.user_secrets 2 =
        some payloadB.password ∧
      (create_user oneUserState payloadB 2 0).2.profiles = oneUserState.profiles ∧
      (create_user oneUserState payloadB 2 0).2.profiles_by_user =
        oneUserState.profiles_by_user) ∧
    ((∃ d, (create_user oneUserState payloadA 3 0).1 = Except.error ⟨400, d⟩) ∧
      (create_user oneUserState payloadA 3 0).2 = oneUserState) :=
  ⟨(C6_create_user_spec oneUserState payloadB 2 0).2 (by decide) (by decide),
   (C6_create_user_spec oneUserState payloadA 3 0).1 (by decide)⟩

/-- C7: profile creation fails with a 400 ValidationError — and creates
nothing, leaving the stores unchanged — whenever the requested owner is not
a live user, or the owner already appears in the user-to-profile index, or
the requested username is already taken case-insensitively by a live
profile. -/
theorem C7_create_profile_validation (s : State) (p : ProfileCreate) (newId : Id)
    (h : getv? s.users p.user_id = none ∨
      (getv? s.profiles_by_user p.user_id).isSome = true ∨
      _username_exists s p.username none = true) :
    (∃ d, (create_profile s p newId).1 = Except.error ⟨400, d⟩) ∧
    (create_profile s p newId).2 = s := by
  cases hu : getv? s.users p.user_id with
  | none => rw [create_profile_no_user hu]; exact ⟨⟨_, rfl⟩, rfl⟩
  | some usr =>
    have husome : (getv? s.users p.user_id).isSome = true := by simp [hu]
    cases hidx : (getv? s.profiles_by_user p.user_id).isSome with
    | true => rw [create_profile_has_profile husome hidx]; exact ⟨⟨_, rfl⟩, rfl⟩
    | false =>
      have hidx' : getv? s.profiles_by_user p.user_id = none := by
        simpa [Option.isSome_iff_ne_none] using hidx
      cases hun : _username_exists s p.username none with
      | true => rw [create_profile_username_dup husome hidx' hun]; exact ⟨⟨_, rfl⟩, rfl⟩
      | false =>
        rcases h with h1 | h2 | h3
        · rw [h1] at hu; exact absurd hu (by simp)
        · rw [h2] at hidx; exact absurd hidx (by simp)
        · rw [h3] at hun; exact absurd hun (by simp)

/-- Witness for C7: all three rejection reasons at concrete states — a
nonexistent owner, an owner that already has a profile, and a username
collision differing only in case. -/
theorem C7_witness :
    ((∃ d, (create_profile baseState { user_id := 3, username := "zoe", bio := "b" } 12).1 =
        Except.error ⟨400, d⟩) ∧
      (create_profile baseState { user_id := 3, username := "zoe", bio := "b" } 12).2 =
        baseState) ∧
    ((∃ d, (create_profile baseState { user_id := 1, username := "zoe", bio := "b" } 12).1 =
        Except.error ⟨400, d⟩) ∧
      (create_profile baseState { user_id := 1, username := "zoe", bio := "b" } 12).2 =
        baseState) ∧
    ((∃ d, (create_profile baseState { user_id := 2, username := "ALICE", bio := "b" } 12).1 =
        Except.error ⟨400, d⟩) ∧
      (create_profile baseState { user_id := 2, username := "ALICE", bio := "b" } 12).2 =
        baseState) :=
  ⟨C7_create_profile_validation baseState _ 12 (Or.inl (by decide)),
   C7_create_profile_validation baseState _ 12 (Or.inr (Or.inl (by decide))),
   C7_create_profile_validation baseState _ 12 (Or.inr (Or.inr (by decide)))⟩

/-- C8: every create or update request that fails — with NotFound or a
ValidationError — returns the stores exactly as they were: all four stores
(`users`, `user_secrets`, `profiles`, `profiles_by_user`) are unchanged, as
every raise happens before any mutation. -/
theorem C8_rejected_requests_leave_stores (s : State) :
    (∀ (p : UserCreate) (newId : Id) (now : Nat) (e : HTTPError),
      (create_user s p newId now).1 = Except.error e →
      (create_user s p newId now).2 = s) ∧
    (∀ (uid : Id) (patch : UserUpdate) (e : HTTPError),
      (update_user s uid patch).1 = Except.error e →
      (update_user s uid patch).2 = s) ∧
    (∀ (p : ProfileCreate) (newId : Id) (e : HTTPError),
      (create_profile s p newId).1 = Except.error e →
      (create_profile s p newId).2 = s) ∧
    (∀ (pid : Id) (patch : ProfileUpdate) (e : HTTPError),
      (update_profile s pid patch).1 = Except.error e →
      (update_profile s pid patch).2 = s) := by
  refine ⟨?_, ?_, ?_, ?_⟩
  · intro p newId now e herr
    cases he : _email_exists s p.email none with
    | true => rw [create_user_email_dup he]
    | false =>
      cases hp : _phone_exists s p.phone none with
      | true => rw [create_user_phone_dup he hp]
      | false =>
        rw [create_user_success he hp] at herr
        exact absurd herr (by simp)
  · intro uid patch e herr
    cases hcur : getv? s.users uid with
    | none => rw [update_user_not_found hcur]
    | some current =>
      cases he : userEmailDup s uid patch with
      | true => rw [update_user_email_dup hcur he]
      | false =>
        cases hp : userPhoneDup s uid patch with
        | true => rw [update_user_phone_dup hcur he hp]
        | false =>
          rw [update_user_success hcur he hp] at herr
          exact absurd herr (by simp)
  · intro p newId e herr
    cases hu : getv? s.users p.user_id with
    | none => rw [create_profile_no_user hu]
    | some usr =>
      have husome : (getv? s.users p.user_id).isSome = true := by simp [hu]
      cases hidx : (getv? s.profiles_by_user p.user_id).isSome with
      | true => rw [create_profile_has_profile husome hidx]
      | false =>
        have hidx' : getv? s.profiles_by_user p.user_id = none := by
          simpa [Option.isSome_iff_ne_none] using hidx
        cases hun : _username_exists s p.username none with
        | true => rw [create_profile_username_dup husome hidx' hun]
        | false =>
          rw [create_profile_success husome hidx' hun] at herr
          exact absurd herr (by simp)
  · intro pid patch e herr
    cases hcur : getv? s.profiles pid with
    | none => rw [update_profile_not_found hcur]
    | some current =>
      cases hd : profileUsernameDup s pid patch with
      | true => rw [update_profile_username_dup hcur hd]
      | false =>
        rw [update_profile_success hcur hd] at herr
        exact absurd herr (by simp)

/-- Witness for C8: four concrete rejections — duplicate email on user
creation, unknown id on user update, nonexistent owner on profile creation,
unknown id on profile update — each leaving the stores as they were. -/
theorem C8_witness :
    (create_user baseState payloadA 5 0).2 = baseState ∧
    (update_user initState 1 namePatch).2 = initState ∧
    (create_profile initState profPayloadA 10).2 = initState ∧
    (update_profile initState 10 bioPatch).2 = initState :=
  ⟨(C8_rejected_requests_leave_stores baseState).1 payloadA 5 0
      ⟨400, "Email already exists"⟩ (by decide),
   (C8_rejected_requests_leave_stores initState).2.1 1 namePatch
      ⟨404, "User not found"⟩ (by decide),
   (C8_rejected_requests_leave_stores initState).2.2.1 profPayloadA 10
      ⟨400, "User does not exist"⟩ (by decide),
   (C8_rejected_requests_leave_stores initState).2.2.2 10 bioPatch
      ⟨404, "Profile not found"⟩ (by decide)⟩

/-- C9: after a successful delete of a live user id, fetching that id
returns the 404 NotFound error, and along any admissible continuation whose
creations never generate that id again (which the source's id generation
precludes), the id never appears in any `list_users` result, for any
combination of filters. -/
theorem C9_deleted_user_stays_gone (s : State) (hs : Reachable s) (uid : Id)
    (hdel : (delete_user s uid).1 = Except.ok ()) :
    get_user (delete_user s uid).2 uid = Except.error ⟨404, "User not found"⟩ ∧
    (∀ (acts : List Act) (t : State), Trace (delete_user s uid).2 acts t →
      (∀ a ∈ acts, ∀ (p : UserCreate) (newId : Id) (now : Nat),
        a = Act.createUser p newId now → newId ≠ uid) →
      ∀ (fn fe fp ft : Option String), ∀ u ∈ list_users t fn fe fp ft, u.id ≠ uid) := by
  have hinv := reachable_inv hs
  cases hcur : (getv? s.users uid).isSome with
  | false =>
    have h0 : getv? s.users uid = none := by
      simpa [Option.isSome_iff_ne_none] using hcur
    rw [delete_user_not_found h0] at hdel
    exact absurd hdel (by simp)
  | true =>
    have hinvS : Inv (delete_user s uid).2 := Inv_delete_user hinv
    have habs : getv? (delete_user s uid).2.users uid = none := by
      rw [delete_user_success hcur]
      exact getv?_delv_self hinv.nodupU
    constructor
    · simp [get_user, habs]
    · intro acts t htr hgen fn fe fp ft u hu hid
      have habsT : getv? t.users uid = none := absent_user_trace htr hinvS habs hgen
      have hinvT : Inv t := trace_inv htr hinvS
      rcases mem_values.mp (list_users_subset hu) with ⟨k, hk⟩
      have hidk : u.id = k := hinvT.idU (k, u) hk
      have hkuid : k = uid := by rw [← hidk, hid]
      subst hkuid
      have := getv?_of_mem hinvT.nodupU hk
      rw [habsT] at this
      exact Option.noConfusion this

/-- Witness for C9: delete user 1 from `oneUserState`, then create user 2;
user 1 is gone from `get_user` and from every `list_users` result. -/
theorem C9_witness :
    get_user (delete_user oneUserState 1).2 1 = Except.error ⟨404, "User not found"⟩ ∧
    (∀ (acts : List Act) (t : State), Trace (delete_user oneUserState 1).2 acts t →
      (∀ a ∈ acts, ∀ (p : UserCreate) (newId : Id) (now : Nat),
        a = Act.createUser p newId now → newId ≠ 1) →
      ∀ (fn fe fp ft : Option String), ∀ u ∈ list_users t fn fe fp ft, u.id ≠ 1) :=
  C9_deleted_user_stays_gone oneUserState oneUserState_reachable 1 (by decide)

/-- C10: for a live user owning a live profile, deleting that profile
removes the user-to-profile index entry for the owner, so a subsequent
profile creation for the same owner with a username taken by no remaining
live profile succeeds. -/
theorem C10_profile_delete_frees_owner (s : State) (hs : Reachable s)
    (pid : Id) (prof : ProfileRead)
    (hprof : getv? s.profiles pid = some prof)
    (husr : (getv? s.users prof.user_id).isSome = true)
    (uname bio : String) (newId : Id)
    (hun : _username_exists (delete_profile s pid).2 uname none = false) :
    getv? (delete_profile s pid).2.profiles_by_user prof.user_id = none ∧
    (create_profile (delete_profile s pid).2
        { user_id := prof.user_id, username := uname, bio := bio } newId).1 =
      Except.ok (mkProfile { user_id := prof.user_id, username := uname, bio := bio } newId) := by
  have hinv := reachable_inv hs
  rw [delete_profile_success hprof] at hun ⊢
  have hidx : getv? (delv s.profiles_by_user prof.user_id) prof.user_id = none :=
    getv?_delv_self hinv.nodupIdx
  refine ⟨hidx, ?_⟩
  rw [create_profile_success husr hidx hun]

/-- Witness for C10: delete profile 10 of user 1 in `baseState`, then
recreate a profile (id 12, username "carol") for user 1. -/
theorem C10_witness :
    getv? (delete_profile baseState 10).2.profiles_by_user 1 = none ∧
    (create_profile (delete_profile baseState 10).2
        { user_id := 1, username := "carol", bio := "b" } 12).1 =
      Except.ok (mkProfile { user_id := 1, username := "carol", bio := "b" } 12) :=
  C10_profile_delete_frees_owner baseState baseState_reachable 10
    (mkProfile profPayloadA 10) (by decide) (by decide) "carol" "b" 12 (by decide)

end Svc
